import Mathlib

/-!
Shallow embedding of `src/voltage_ctrl/voltage_controller.py`
(`VoltageController`), a host-side driver that converts voltages and
current limits into 12-bit DAC codes and transmits them as ASCII
commands over a serial link.

Python floats are modelled as exact rationals (`ℚ`); `int(np.floor x)`
is `Int.floor`.  Serial I/O is modelled by an explicit event trace on a
controller state: opening the port, writing raw bytes, writing a framed
command, and closing the port.  Exceptions are modelled by an
`Option String` error component threaded through each operation.
-/

namespace VoltageCtrl

/-- `DAC_RESOLUTION = 4096` (12-bit DAC), class constant of
`VoltageController`. -/
def DAC_RESOLUTION : ℚ := 4096

/-- `VOLTAGE_FULL_SCALE = 30.0` volts, class constant. -/
def VOLTAGE_FULL_SCALE : ℚ := 30

/-- `CURRENT_SCALE_FACTOR = 200.0` (mA scaling), class constant. -/
def CURRENT_SCALE_FACTOR : ℚ := 200

/-- `CURRENT_SAFETY_FACTOR = 1.1`, class constant. -/
def CURRENT_SAFETY_FACTOR : ℚ := 11 / 10

/-- `VoltageController._voltage_to_dac`:
`dac_value = voltage / self.VOLTAGE_FULL_SCALE * self.DAC_RESOLUTION;
return int(np.floor(dac_value))`. -/
def voltageToDac (voltage : ℚ) : ℤ :=
  Int.floor (voltage / VOLTAGE_FULL_SCALE * DAC_RESOLUTION)

/-- `VoltageController._current_limit_to_dac`:
`dac_value = current_limit_ma / self.CURRENT_SCALE_FACTOR * self.DAC_RESOLUTION;
return int(np.floor(dac_value))`. -/
def currentLimitToDac (currentLimitMa : ℚ) : ℤ :=
  Int.floor (currentLimitMa / CURRENT_SCALE_FACTOR * DAC_RESOLUTION)

/-- One framed command: a (channel, mode, DAC value) triple.
`mode = 0` selects voltage, `mode = 1` selects current limit. -/
structure Command where
  channel : Nat
  mode : Nat
  value : ℤ
deriving DecidableEq, Repr

/-- The ASCII line built by `VoltageController._send_command`:
`command = f"s{channel} {mode} {int(value)} e"`. -/
def frameCommand (c : Command) : String :=
  "s" ++ toString c.channel ++ " " ++ toString c.mode
    ++ " " ++ toString c.value ++ " e"

/-- One observable serial event: port opened, raw bytes written, a
framed command written, or port closed. -/
inductive Event where
  | opened : Event
  | wroteRaw : String → Event
  | wroteCmd : Command → Event
  | closed : Event
deriving DecidableEq, Repr

/-- The bytes an event puts on the wire, if any: a `wroteCmd` event
writes the framed ASCII command, a `wroteRaw` event writes its payload
verbatim. -/
def Event.bytes : Event → Option String
  | Event.wroteRaw s => some s
  | Event.wroteCmd c => some (frameCommand c)
  | _ => none

/-- Controller state: whether the serial connection is open
(`serial_conn and serial_conn.is_open`), the `_active_channels` list,
and the trace of serial events so far. -/
structure CState where
  isOpen : Bool
  activeChannels : List Nat
  trace : List Event
deriving DecidableEq, Repr

/-- A freshly constructed controller: connection closed, no active
channels, nothing transmitted. -/
def initState : CState :=
  { isOpen := false, activeChannels := [], trace := [] }

/-- `VoltageController._open_serial`: a no-op when already open;
otherwise opens the port and writes the literal `b"hello world"` to
clear the Arduino's buffer. -/
def openSerial (st : CState) : CState :=
  if st.isOpen then st
  else { st with
           isOpen := true,
           trace := st.trace ++ [Event.opened, Event.wroteRaw "hello world"] }

/-- `VoltageController._close_serial`: closes the port when open,
otherwise a no-op. -/
def closeSerial (st : CState) : CState :=
  if st.isOpen then
    { st with isOpen := false, trace := st.trace ++ [Event.closed] }
  else st

/-- `VoltageController._send_command`: frames the command and writes it
to the serial connection. -/
def sendCommand (st : CState) (channel mode : Nat) (value : ℤ) : CState :=
  { st with trace := st.trace ++ [Event.wroteCmd ⟨channel, mode, value⟩] }

/-- `VoltageController._update_active_channels`: appends each channel
not already present to `_active_channels`. -/
def updateActiveChannels (st : CState) (channels : List Nat) : CState :=
  { st with activeChannels :=
      (channels.foldl
        (fun acc ch => if ch ∈ acc then acc else acc ++ [ch])
        st.activeChannels) }

/-- `VoltageController.set_voltages`: raises `ValueError` on a length
mismatch; otherwise records the channels as active, opens the port,
sends one voltage command per channel with the clamped voltage
(`min(voltage, v_max)`), and closes the port. -/
def setVoltages (st : CState) (channels : List Nat) (voltages : List ℚ)
    (vMax : ℚ) : CState × Option String :=
  if channels.length ≠ voltages.length then
    (st, some "ValueError")
  else
    let st1 := updateActiveChannels st channels
    let st2 := openSerial st1
    let st3 := (channels.zip voltages).foldl
      (fun s p => sendCommand s p.1 0 (voltageToDac (min p.2 vMax))) st2
    (closeSerial st3, none)

/-- `VoltageController.set_voltages_safe`: raises `ValueError` on a
length mismatch; otherwise records the channels as active and runs
three phases: (1) one conservative current-limit command per channel
computed from `i_max_ma = v_max / resistance * CURRENT_SAFETY_FACTOR * 1000`,
(2) one voltage command per channel, clamping voltages above `v_max`,
(3) one tightened current-limit command per channel computed from the
clamped voltage.  The port is closed and reopened between phases 1
and 2, exactly as in the source. -/
def setVoltagesSafe (st : CState) (channels : List Nat) (voltages : List ℚ)
    (resistance vMax : ℚ) : CState × Option String :=
  if channels.length ≠ voltages.length then
    (st, some "ValueError")
  else
    let st1 := updateActiveChannels st channels
    let iMaxMa := vMax / resistance * CURRENT_SAFETY_FACTOR * 1000
    let st2 := openSerial st1
    let st3 := channels.foldl
      (fun s ch => sendCommand s ch 1 (currentLimitToDac iMaxMa)) st2
    let st4 := closeSerial st3
    let st5 := openSerial st4
    let st6 := (channels.zip voltages).foldl
      (fun s p => sendCommand s p.1 0
        (if p.2 > vMax then voltageToDac vMax else voltageToDac p.2)) st5
    let st7 := (channels.zip voltages).foldl
      (fun s p => sendCommand s p.1 1
        (currentLimitToDac
          (min p.2 vMax / resistance * CURRENT_SAFETY_FACTOR * 1000))) st6
    (closeSerial st7, none)

/-- The flattened send sequence of `VoltageController._zero_channels`:
for each channel, a voltage command (mode 0) then a current-limit
command (mode 1), both with DAC value 0. -/
def zeroSends (channels : List Nat) : List (Nat × Nat) :=
  channels.flatMap (fun ch => [(ch, 0), (ch, 1)])

/-- `VoltageController._zero_channels`: opens the port and sends
voltage 0 then current limit 0 to each channel.  A write failure is
modelled by `failAt`: `some k` makes the `k`-th send (0-based) raise
before writing.  Faithful to the `try/except/finally` of the source,
the exception is re-raised after the `finally` block closes the port. -/
def zeroChannels (st : CState) (channels : List Nat)
    (failAt : Option Nat) : CState × Option String :=
  let st1 := openSerial st
  let sends := zeroSends channels
  let n := match failAt with
    | none => sends.length
    | some k => min k sends.length
  let st2 := (sends.take n).foldl (fun s p => sendCommand s p.1 p.2 0) st1
  let err : Option String := match failAt with
    | none => none
    | some k => if k < sends.length then some "write error" else none
  (closeSerial st2, err)

/-- `VoltageController.__exit__`: when `zero_on_exit` is set and there
are active channels, zeroes them; any exception from zeroing is caught
and printed (`except Exception as e: print(...)`), never propagated;
the `finally` block then closes the serial connection unconditionally.
The second component is the exception (if any) escaping `__exit__`. -/
def exitCtx (st : CState) (zeroOnExit : Bool)
    (failAt : Option Nat) : CState × Option String :=
  let stAfter :=
    if zeroOnExit && !st.activeChannels.isEmpty then
      (zeroChannels st st.activeChannels failAt).1
    else st
  (closeSerial stAfter, none)

/-- The framed commands appearing in a trace, in transmission order. -/
def cmdsOf (tr : List Event) : List Command :=
  tr.filterMap (fun e => match e with
    | Event.wroteCmd c => some c
    | _ => none)

/-- One caller-visible mutating operation of the controller. -/
inductive Call where
  | setV : List Nat → List ℚ → ℚ → Call
  | setVSafe : List Nat → List ℚ → ℚ → ℚ → Call

/-- The channels a call addresses. -/
def Call.channels : Call → List Nat
  | Call.setV c _ _ => c
  | Call.setVSafe c _ _ _ => c

/-- Whether a call passes the length-mismatch validation. -/
def Call.lengthsMatch : Call → Prop
  | Call.setV c v _ => c.length = v.length
  | Call.setVSafe c v _ _ => c.length = v.length

instance : DecidablePred Call.lengthsMatch := by
  intro c
  cases c <;> simp only [Call.lengthsMatch] <;> infer_instance

/-- Run one call, keeping the resulting state (on `ValueError` the
state is returned unchanged, as the exception aborts the call). -/
def runCall (st : CState) : Call → CState
  | Call.setV c v m => (setVoltages st c v m).1
  | Call.setVSafe c v r m => (setVoltagesSafe st c v r m).1

/-- Run a sequence of calls from a starting state. -/
def runCalls (st : CState) (cs : List Call) : CState :=
  cs.foldl runCall st

/-! ### Helper lemmas -/

lemma cmdsOf_append (a b : List Event) :
    cmdsOf (a ++ b) = cmdsOf a ++ cmdsOf b := by
  simp [cmdsOf]

lemma cmdsOf_map_wroteCmd {α : Type} (f : α → Command) (l : List α) :
    cmdsOf (l.map (fun a => Event.wroteCmd (f a))) = l.map f := by
  induction l with
  | nil => rfl
  | cons a l ih => simp [cmdsOf] at ih ⊢; exact ih

lemma openSerial_activeChannels (st : CState) :
    (openSerial st).activeChannels = st.activeChannels := by
  unfold openSerial; split <;> rfl

lemma closeSerial_activeChannels (st : CState) :
    (closeSerial st).activeChannels = st.activeChannels := by
  unfold closeSerial; split <;> rfl

lemma cmdsOf_openSerial (st : CState) :
    cmdsOf (openSerial st).trace = cmdsOf st.trace := by
  unfold openSerial; split
  · rfl
  · simp [cmdsOf_append, cmdsOf]

lemma cmdsOf_closeSerial (st : CState) :
    cmdsOf (closeSerial st).trace = cmdsOf st.trace := by
  unfold closeSerial; split
  · simp [cmdsOf_append, cmdsOf]
  · rfl

lemma updateActiveChannels_trace (st : CState) (channels : List Nat) :
    (updateActiveChannels st channels).trace = st.trace := rfl

/-- A `foldl` of `sendCommand` steps only appends the corresponding
`wroteCmd` events to the trace. -/
lemma foldl_sendCommand {α : Type} (g : α → Nat × Nat × ℤ) (l : List α)
    (st : CState) :
    l.foldl (fun s a => sendCommand s (g a).1 (g a).2.1 (g a).2.2) st
      = { st with trace := (st.trace ++
            l.map (fun a => Event.wroteCmd ⟨(g a).1, (g a).2.1, (g a).2.2⟩)) } := by
  induction l generalizing st with
  | nil => simp
  | cons a l ih =>
    rw [List.foldl_cons, ih]
    simp [sendCommand, List.append_assoc]

lemma foldl_send_voltage (vMax : ℚ) (l : List (Nat × ℚ)) (st : CState) :
    l.foldl (fun s p => sendCommand s p.1 0 (voltageToDac (min p.2 vMax))) st
      = { st with trace := (st.trace ++
            l.map (fun p =>
              Event.wroteCmd ⟨p.1, 0, voltageToDac (min p.2 vMax)⟩)) } :=
  foldl_sendCommand (fun p => (p.1, 0, voltageToDac (min p.2 vMax))) l st

lemma foldl_send_current (c : ℚ) (l : List Nat) (st : CState) :
    l.foldl (fun s ch => sendCommand s ch 1 (currentLimitToDac c)) st
      = { st with trace := (st.trace ++
            l.map (fun ch => Event.wroteCmd ⟨ch, 1, currentLimitToDac c⟩)) } :=
  foldl_sendCommand (fun ch => (ch, 1, currentLimitToDac c)) l st

lemma foldl_send_voltage_safe (vMax : ℚ) (l : List (Nat × ℚ)) (st : CState) :
    l.foldl (fun s p => sendCommand s p.1 0
        (if p.2 > vMax then voltageToDac vMax else voltageToDac p.2)) st
      = { st with trace := (st.trace ++
            l.map (fun p => Event.wroteCmd
              ⟨p.1, 0, if p.2 > vMax then voltageToDac vMax
                       else voltageToDac p.2⟩)) } :=
  foldl_sendCommand
    (fun p => (p.1, 0,
      if p.2 > vMax then voltageToDac vMax else voltageToDac p.2)) l st

lemma foldl_send_current_final (r vMax : ℚ) (l : List (Nat × ℚ))
    (st : CState) :
    l.foldl (fun s p => sendCommand s p.1 1
        (currentLimitToDac
          (min p.2 vMax / r * CURRENT_SAFETY_FACTOR * 1000))) st
      = { st with trace := (st.trace ++
            l.map (fun p => Event.wroteCmd
              ⟨p.1, 1, currentLimitToDac
                (min p.2 vMax / r * CURRENT_SAFETY_FACTOR * 1000)⟩)) } :=
  foldl_sendCommand
    (fun p => (p.1, 1,
      currentLimitToDac (min p.2 vMax / r * CURRENT_SAFETY_FACTOR * 1000)))
    l st

lemma foldl_send_zero (l : List (Nat × Nat)) (st : CState) :
    l.foldl (fun s p => sendCommand s p.1 p.2 0) st
      = { st with trace := (st.trace ++
            l.map (fun p => Event.wroteCmd ⟨p.1, p.2, 0⟩)) } :=
  foldl_sendCommand (fun p => (p.1, p.2, (0 : ℤ))) l st

lemma closeSerial_isOpen (st : CState) : (closeSerial st).isOpen = false := by
  unfold closeSerial; split <;> simp_all

lemma setVoltages_mismatch (st : CState) (chans : List Nat) (volts : List ℚ)
    (vMax : ℚ) (h : chans.length ≠ volts.length) :
    setVoltages st chans volts vMax = (st, some "ValueError") := by
  simp [setVoltages, h]

lemma setVoltagesSafe_mismatch (st : CState) (chans : List Nat)
    (volts : List ℚ) (r vMax : ℚ) (h : chans.length ≠ volts.length) :
    setVoltagesSafe st chans volts r vMax = (st, some "ValueError") := by
  simp [setVoltagesSafe, h]

lemma cmdsOf_setVoltages (st : CState) (chans : List Nat) (volts : List ℚ)
    (vMax : ℚ) (h : chans.length = volts.length) :
    cmdsOf (setVoltages st chans volts vMax).1.trace =
      cmdsOf st.trace ++
        (chans.zip volts).map
          (fun p => Command.mk p.1 0 (voltageToDac (min p.2 vMax))) := by
  simp only [setVoltages]
  rw [if_neg (by simp [h])]
  rw [foldl_send_voltage]
  simp only [cmdsOf_closeSerial, cmdsOf_append, cmdsOf_openSerial,
    updateActiveChannels_trace, cmdsOf_map_wroteCmd]

lemma cmdsOf_setVoltagesSafe (st : CState) (chans : List Nat)
    (volts : List ℚ) (r vMax : ℚ) (h : chans.length = volts.length) :
    cmdsOf (setVoltagesSafe st chans volts r vMax).1.trace =
      cmdsOf st.trace ++
        chans.map (fun ch => Command.mk ch 1
          (currentLimitToDac (vMax / r * CURRENT_SAFETY_FACTOR * 1000))) ++
        (chans.zip volts).map (fun p => Command.mk p.1 0
          (if p.2 > vMax then voltageToDac vMax else voltageToDac p.2)) ++
        (chans.zip volts).map (fun p => Command.mk p.1 1
          (currentLimitToDac
            (min p.2 vMax / r * CURRENT_SAFETY_FACTOR * 1000))) := by
  simp only [setVoltagesSafe]
  rw [if_neg (by simp [h])]
  rw [foldl_send_current, foldl_send_voltage_safe, foldl_send_current_final]
  simp only [cmdsOf_closeSerial, cmdsOf_append, cmdsOf_openSerial,
    updateActiveChannels_trace, cmdsOf_map_wroteCmd, List.append_assoc]

lemma setVoltages_ok_state (st : CState) (chans : List Nat)
    (volts : List ℚ) (vMax : ℚ) (h : chans.length = volts.length) :
    (setVoltages st chans volts vMax).2 = none ∧
      (setVoltages st chans volts vMax).1.activeChannels =
        (updateActiveChannels st chans).activeChannels := by
  simp only [setVoltages]
  rw [if_neg (by simp [h])]
  rw [foldl_send_voltage]
  simp [closeSerial_activeChannels, openSerial_activeChannels]

lemma setVoltagesSafe_ok_state (st : CState) (chans : List Nat)
    (volts : List ℚ) (r vMax : ℚ) (h : chans.length = volts.length) :
    (setVoltagesSafe st chans volts r vMax).2 = none ∧
      (setVoltagesSafe st chans volts r vMax).1.activeChannels =
        (updateActiveChannels st chans).activeChannels := by
  simp only [setVoltagesSafe]
  rw [if_neg (by simp [h])]
  rw [foldl_send_current, foldl_send_voltage_safe, foldl_send_current_final]
  simp [closeSerial_activeChannels, openSerial_activeChannels]

lemma cmdsOf_zeroChannels (st : CState) (chans : List Nat)
    (failAt : Option Nat) :
    ∀ c ∈ cmdsOf (zeroChannels st chans failAt).1.trace,
      c ∈ cmdsOf st.trace ∨ c.value = 0 := by
  simp only [zeroChannels]
  rw [foldl_send_zero]
  intro c hc
  simp only [cmdsOf_closeSerial, cmdsOf_append, cmdsOf_openSerial,
    cmdsOf_map_wroteCmd, List.mem_append] at hc
  rcases hc with hc | hc
  · exact Or.inl hc
  · right
    rcases List.mem_map.mp hc with ⟨p, _, rfl⟩
    rfl

/-! ### Numeric lemmas about the unit conversions -/

lemma voltageToDac_nonneg {v : ℚ} (h : 0 ≤ v) : 0 ≤ voltageToDac v := by
  have hx : (0 : ℚ) ≤ v / VOLTAGE_FULL_SCALE * DAC_RESOLUTION := by
    unfold VOLTAGE_FULL_SCALE DAC_RESOLUTION
    exact mul_nonneg (div_nonneg h (by norm_num)) (by norm_num)
  exact Int.floor_nonneg.mpr hx

lemma voltageToDac_le {v : ℚ} (h : v < 30) : voltageToDac v ≤ 4095 := by
  have h1 : v / (30 : ℚ) < 1 := (div_lt_one (by norm_num)).mpr h
  have hx : v / VOLTAGE_FULL_SCALE * DAC_RESOLUTION < 4096 := by
    unfold VOLTAGE_FULL_SCALE DAC_RESOLUTION
    nlinarith [h1]
  have h2 : voltageToDac v < 4096 :=
    Int.floor_lt.mpr (by exact_mod_cast hx)
  linarith

lemma currentLimitToDac_mono {a b : ℚ} (h : a ≤ b) :
    currentLimitToDac a ≤ currentLimitToDac b := by
  have hx : a / CURRENT_SCALE_FACTOR * DAC_RESOLUTION ≤
      b / CURRENT_SCALE_FACTOR * DAC_RESOLUTION := by
    unfold CURRENT_SCALE_FACTOR DAC_RESOLUTION
    gcongr
  exact Int.floor_mono hx

/-! ### The `_active_channels` bookkeeping -/

lemma mem_activeFold_of_mem {x : Nat} (chans : List Nat) (base : List Nat)
    (hx : x ∈ base) :
    x ∈ chans.foldl
      (fun acc ch => if ch ∈ acc then acc else acc ++ [ch]) base := by
  induction chans generalizing base with
  | nil => exact hx
  | cons c cs ih =>
    rw [List.foldl_cons]
    apply ih
    dsimp only
    by_cases hc : c ∈ base
    · rw [if_pos hc]; exact hx
    · rw [if_neg hc]; exact List.mem_append_left _ hx

lemma mem_activeFold_of_mem_chans {x : Nat} (chans : List Nat)
    (base : List Nat) (hx : x ∈ chans) :
    x ∈ chans.foldl
      (fun acc ch => if ch ∈ acc then acc else acc ++ [ch]) base := by
  induction chans generalizing base with
  | nil => cases hx
  | cons c cs ih =>
    rw [List.foldl_cons]
    rcases List.mem_cons.mp hx with rfl | hxs
    · apply mem_activeFold_of_mem
      dsimp only
      by_cases hc : x ∈ base
      · rw [if_pos hc]; exact hc
      · rw [if_neg hc]; exact List.mem_append_right _ (List.mem_singleton.mpr rfl)
    · exact ih _ hxs

lemma nodup_activeFold (chans : List Nat) (base : List Nat)
    (h : base.Nodup) :
    (chans.foldl
      (fun acc ch => if ch ∈ acc then acc else acc ++ [ch]) base).Nodup := by
  induction chans generalizing base with
  | nil => exact h
  | cons c cs ih =>
    rw [List.foldl_cons]
    apply ih
    dsimp only
    by_cases hc : c ∈ base
    · rw [if_pos hc]; exact h
    · rw [if_neg hc]
      exact h.append (List.nodup_singleton c)
        (List.disjoint_singleton.mpr hc)

lemma runCall_activeChannels_ok (st : CState) (c : Call)
    (h : c.lengthsMatch) :
    (runCall st c).activeChannels =
      (updateActiveChannels st c.channels).activeChannels := by
  cases c with
  | setV chans volts vMax =>
    exact (setVoltages_ok_state st chans volts vMax h).2
  | setVSafe chans volts r vMax =>
    exact (setVoltagesSafe_ok_state st chans volts r vMax h).2

lemma runCall_activeChannels_mismatch (st : CState) (c : Call)
    (h : ¬ c.lengthsMatch) :
    (runCall st c).activeChannels = st.activeChannels := by
  cases c with
  | setV chans volts vMax =>
    rw [runCall, setVoltages_mismatch st chans volts vMax h]
  | setVSafe chans volts r vMax =>
    rw [runCall, setVoltagesSafe_mismatch st chans volts r vMax h]

lemma runCall_nodup (st : CState) (c : Call)
    (h : st.activeChannels.Nodup) :
    (runCall st c).activeChannels.Nodup := by
  by_cases hm : c.lengthsMatch
  · rw [runCall_activeChannels_ok st c hm]
    exact nodup_activeFold _ _ h
  · rw [runCall_activeChannels_mismatch st c hm]; exact h

lemma runCall_mem_mono (st : CState) (c : Call) {x : Nat}
    (h : x ∈ st.activeChannels) :
    x ∈ (runCall st c).activeChannels := by
  by_cases hm : c.lengthsMatch
  · rw [runCall_activeChannels_ok st c hm]
    exact mem_activeFold_of_mem _ _ h
  · rw [runCall_activeChannels_mismatch st c hm]; exact h

lemma runCall_mem_channels (st : CState) (c : Call) {x : Nat}
    (hm : c.lengthsMatch) (hx : x ∈ c.channels) :
    x ∈ (runCall st c).activeChannels := by
  rw [runCall_activeChannels_ok st c hm]
  exact mem_activeFold_of_mem_chans _ _ hx

lemma runCalls_nodup (cs : List Call) (st : CState)
    (h : st.activeChannels.Nodup) :
    (runCalls st cs).activeChannels.Nodup := by
  induction cs generalizing st with
  | nil => exact h
  | cons c cs ih => exact ih _ (runCall_nodup st c h)

lemma runCalls_mem_mono (cs : List Call) (st : CState) {x : Nat}
    (h : x ∈ st.activeChannels) :
    x ∈ (runCalls st cs).activeChannels := by
  induction cs generalizing st with
  | nil => exact h
  | cons c cs ih => exact ih _ (runCall_mem_mono st c h)

lemma runCalls_mem_of_call (cs : List Call) (st : CState) {c : Call}
    {x : Nat} (hc : c ∈ cs) (hm : c.lengthsMatch) (hx : x ∈ c.channels) :
    x ∈ (runCalls st cs).activeChannels := by
  induction cs generalizing st with
  | nil => cases hc
  | cons d ds ih =>
    rcases List.mem_cons.mp hc with rfl | hds
    · exact runCalls_mem_mono ds _ (runCall_mem_channels st c hm hx)
    · exact ih _ hds

/-! ### Claims -/

/-- C2: for equal-length channel/voltage lists, `set_voltages_safe`
transmits exactly three phases in order — one conservative
current-limit command per channel computed from
`v_max / resistance * 1.1 * 1000`, then one voltage command per channel
with the clamped voltage's code, then one current-limit command per
channel computed from the clamped voltage — so every phase-1 command
precedes every voltage command; and with `resistance = 50`,
`v_max = 10` the phase-1 current limit is `220` mA with DAC code
`4505`. -/
theorem c2_safe_set_three_phases (st : CState) (chans : List Nat)
    (volts : List ℚ) (r vMax : ℚ) (h : chans.length = volts.length) :
    cmdsOf (setVoltagesSafe st chans volts r vMax).1.trace =
      cmdsOf st.trace ++
        chans.map (fun ch => Command.mk ch 1
          (currentLimitToDac (vMax / r * CURRENT_SAFETY_FACTOR * 1000))) ++
        (chans.zip volts).map (fun p => Command.mk p.1 0
          (voltageToDac (min p.2 vMax))) ++
        (chans.zip volts).map (fun p => Command.mk p.1 1
          (currentLimitToDac
            (min p.2 vMax / r * CURRENT_SAFETY_FACTOR * 1000))) ∧
      (10 : ℚ) / 50 * CURRENT_SAFETY_FACTOR * 1000 = 220 ∧
      currentLimitToDac ((10 : ℚ) / 50 * CURRENT_SAFETY_FACTOR * 1000)
        = 4505 := by
  have hclamp : ∀ p : Nat × ℚ,
      (if p.2 > vMax then voltageToDac vMax else voltageToDac p.2)
        = voltageToDac (min p.2 vMax) := by
    intro p
    by_cases hp : p.2 > vMax
    · rw [if_pos hp, min_eq_right (le_of_lt hp)]
    · rw [if_neg hp, min_eq_left (le_of_not_lt hp)]
  refine ⟨?_, by norm_num [CURRENT_SAFETY_FACTOR], ?_⟩
  · rw [cmdsOf_setVoltagesSafe st chans volts r vMax h]
    simp only [hclamp]
  · norm_num [currentLimitToDac, CURRENT_SAFETY_FACTOR,
      CURRENT_SCALE_FACTOR, DAC_RESOLUTION]

theorem c2_safe_set_three_phases_witness :
    ([8] : List Nat).length = ([5] : List ℚ).length ∧
    (cmdsOf (setVoltagesSafe initState [8] [5] 50 10).1.trace =
      cmdsOf initState.trace ++
        ([8] : List Nat).map (fun ch => Command.mk ch 1
          (currentLimitToDac (10 / 50 * CURRENT_SAFETY_FACTOR * 1000))) ++
        (([8] : List Nat).zip ([5] : List ℚ)).map (fun p => Command.mk p.1 0
          (voltageToDac (min p.2 10))) ++
        (([8] : List Nat).zip ([5] : List ℚ)).map (fun p => Command.mk p.1 1
          (currentLimitToDac
            (min p.2 10 / 50 * CURRENT_SAFETY_FACTOR * 1000))) ∧
      (10 : ℚ) / 50 * CURRENT_SAFETY_FACTOR * 1000 = 220 ∧
      currentLimitToDac ((10 : ℚ) / 50 * CURRENT_SAFETY_FACTOR * 1000)
        = 4505) :=
  ⟨rfl, c2_safe_set_three_phases initState [8] [5] 50 10 rfl⟩

/-- C3: on `[0, 30)` the voltage conversion is exactly
`floor(v / 30.0 * 4096)` and its result lies in `[0, 4095]`. -/
theorem c3_voltage_to_dac_spec (v : ℚ) (h0 : 0 ≤ v) (h1 : v < 30) :
    voltageToDac v = Int.floor (v / 30 * 4096) ∧
      0 ≤ voltageToDac v ∧ voltageToDac v ≤ 4095 :=
  ⟨rfl, voltageToDac_nonneg h0, voltageToDac_le h1⟩

theorem c3_voltage_to_dac_spec_witness :
    (0 : ℚ) ≤ 15 ∧ (15 : ℚ) < 30 ∧
      (voltageToDac 15 = Int.floor ((15 : ℚ) / 30 * 4096) ∧
        0 ≤ voltageToDac 15 ∧ voltageToDac 15 ≤ 4095) :=
  ⟨by norm_num, by norm_num,
    c3_voltage_to_dac_spec 15 (by norm_num) (by norm_num)⟩

/-- C4: whenever a requested voltage is at least `v_max`, both
`set_voltages` and `set_voltages_safe` transmit for that channel a
voltage command whose DAC code is `_voltage_to_dac(v_max)`: clamping
happens before encoding. -/
theorem c4_clamped_voltage_command (st : CState) (chans : List Nat)
    (volts : List ℚ) (r vMax : ℚ) (ch : Nat) (v : ℚ)
    (hlen : chans.length = volts.length)
    (hmem : (ch, v) ∈ chans.zip volts) (hv : vMax ≤ v) :
    Command.mk ch 0 (voltageToDac vMax) ∈
        cmdsOf (setVoltages st chans volts vMax).1.trace ∧
      Command.mk ch 0 (voltageToDac vMax) ∈
        cmdsOf (setVoltagesSafe st chans volts r vMax).1.trace := by
  constructor
  · rw [cmdsOf_setVoltages st chans volts vMax hlen]
    refine List.mem_append.mpr (Or.inr (List.mem_map.mpr ⟨(ch, v), hmem, ?_⟩))
    rw [min_eq_right hv]
  · rw [cmdsOf_setVoltagesSafe st chans volts r vMax hlen]
    refine List.mem_append.mpr (Or.inl (List.mem_append.mpr (Or.inr
      (List.mem_map.mpr ⟨(ch, v), hmem, ?_⟩))))
    by_cases hp : v > vMax
    · rw [if_pos hp]
    · rw [if_neg hp, le_antisymm (le_of_not_lt hp) hv]

theorem c4_clamped_voltage_command_witness :
    ([7] : List Nat).length = ([12] : List ℚ).length ∧
    ((7 : Nat), (12 : ℚ)) ∈ ([7] : List Nat).zip ([12] : List ℚ) ∧
    (10 : ℚ) ≤ 12 ∧
    (Command.mk 7 0 (voltageToDac 10) ∈
        cmdsOf (setVoltages initState [7] [12] 10).1.trace ∧
      Command.mk 7 0 (voltageToDac 10) ∈
        cmdsOf (setVoltagesSafe initState [7] [12] 50 10).1.trace) :=
  ⟨rfl, by simp, by norm_num,
    c4_clamped_voltage_command initState [7] [12] 50 10 7 12 rfl
      (by simp) (by norm_num)⟩

/-- C5: the bytes of one command are exactly the ASCII text
`s{channel} {mode} {code} e`, with single spaces and no terminator
beyond the literal `e`; in particular channel 9, mode 0, code 1365
frames as `s9 0 1365 e`. -/
theorem c5_command_wire_format :
    (∀ c : Command, frameCommand c =
        "s" ++ toString c.channel ++ " " ++ toString c.mode ++ " "
          ++ toString c.value ++ " e") ∧
    (∀ (st : CState) (channel mode : Nat) (value : ℤ),
      (sendCommand st channel mode value).trace =
          st.trace ++ [Event.wroteCmd ⟨channel, mode, value⟩] ∧
        Event.bytes (Event.wroteCmd ⟨channel, mode, value⟩) =
          some (frameCommand ⟨channel, mode, value⟩)) ∧
    frameCommand ⟨9, 0, 1365⟩ = "s9 0 1365 e" :=
  ⟨fun _ => rfl, fun _ _ _ _ => ⟨rfl, rfl⟩, rfl⟩

/-- C6: on a channels/voltages length mismatch both operations raise
`ValueError` with the state (hence the transport and the byte trace)
untouched: the port is never opened and zero bytes are transmitted. -/
theorem c6_mismatch_raises_before_any_io (st : CState) (chans : List Nat)
    (volts : List ℚ) (r vMax : ℚ) (h : chans.length ≠ volts.length) :
    setVoltages st chans volts vMax = (st, some "ValueError") ∧
      setVoltagesSafe st chans volts r vMax = (st, some "ValueError") ∧
      (setVoltages st chans volts vMax).1.trace = st.trace ∧
      (setVoltagesSafe st chans volts r vMax).1.trace = st.trace :=
  ⟨setVoltages_mismatch st chans volts vMax h,
    setVoltagesSafe_mismatch st chans volts r vMax h,
    by rw [setVoltages_mismatch st chans volts vMax h],
    by rw [setVoltagesSafe_mismatch st chans volts r vMax h]⟩

theorem c6_mismatch_raises_before_any_io_witness :
    ([8] : List Nat).length ≠ ([] : List ℚ).length ∧
    (setVoltages initState [8] [] 10 = (initState, some "ValueError") ∧
      setVoltagesSafe initState [8] [] 50 10
        = (initState, some "ValueError") ∧
      (setVoltages initState [8] [] 10).1.trace = initState.trace ∧
      (setVoltagesSafe initState [8] [] 50 10).1.trace
        = initState.trace) :=
  ⟨by simp, c6_mismatch_raises_before_any_io initState [8] [] 50 10
    (by simp)⟩

/-- C9: when the length check fails, the controller state — in
particular `_active_channels` — is exactly what it was before the
call: the check precedes the active-channel update. -/
theorem c9_mismatch_leaves_state_unchanged (st : CState)
    (chans : List Nat) (volts : List ℚ) (r vMax : ℚ)
    (h : chans.length ≠ volts.length) :
    (setVoltages st chans volts vMax).1.activeChannels
        = st.activeChannels ∧
      (setVoltagesSafe st chans volts r vMax).1.activeChannels
        = st.activeChannels ∧
      (setVoltages st chans volts vMax).1 = st ∧
      (setVoltagesSafe st chans volts r vMax).1 = st := by
  rw [setVoltages_mismatch st chans volts vMax h,
    setVoltagesSafe_mismatch st chans volts r vMax h]
  exact ⟨rfl, rfl, rfl, rfl⟩

theorem c9_mismatch_leaves_state_unchanged_witness :
    ([1, 2] : List Nat).length ≠ ([5] : List ℚ).length ∧
    ((setVoltages initState [1, 2] [5] 10).1.activeChannels
        = initState.activeChannels ∧
      (setVoltagesSafe initState [1, 2] [5] 50 10).1.activeChannels
        = initState.activeChannels ∧
      (setVoltages initState [1, 2] [5] 10).1 = initState ∧
      (setVoltagesSafe initState [1, 2] [5] 50 10).1 = initState) :=
  ⟨by simp, c9_mismatch_leaves_state_unchanged initState [1, 2] [5] 50 10
    (by simp)⟩

/-- C1 (counterexample): with pre-clamped voltage inputs in
`[0, v_max]` — channel 8, voltage 5 V, `v_max = 10`,
`resistance = 50` — `set_voltages_safe` hands the framer the phase-1
current-limit DAC code 4505, which is not in `[0, 4095]`.  The claim
that every transmitted DAC code lies in `[0, 4095]` is therefore
false. -/
theorem c1_counterexample_current_code_exceeds_range :
    ((0 : ℚ) ≤ 5 ∧ (5 : ℚ) ≤ 10) ∧
      Command.mk 8 1 4505 ∈
        cmdsOf (setVoltagesSafe initState [8] [5] 50 10).1.trace ∧
      ¬ ((4505 : ℤ) ≤ 4095) := by
  have hcode : currentLimitToDac ((10 : ℚ) / 50 * CURRENT_SAFETY_FACTOR * 1000)
      = 4505 := by
    norm_num [currentLimitToDac, CURRENT_SAFETY_FACTOR,
      CURRENT_SCALE_FACTOR, DAC_RESOLUTION]
  refine ⟨⟨by norm_num, by norm_num⟩, ?_, by norm_num⟩
  rw [cmdsOf_setVoltagesSafe initState [8] [5] 50 10 rfl]
  simp [initState, cmdsOf, hcode]

/-- C1 (amended): with pre-clamped voltage inputs in `[0, v_max]` and
`v_max` below the 30 V full scale, every voltage-mode (mode 0) DAC code
handed to the framer by `set_voltages` and `set_voltages_safe` lies in
`[0, 4095]`, and every code sent by `_zero_channels` is `0`;
current-limit (mode 1) codes are exempt — they can exceed 4095 (see the
counterexample). -/
theorem c1_voltage_codes_in_range (st : CState) (chans : List Nat)
    (volts : List ℚ) (r vMax : ℚ) (failAt : Option Nat)
    (hv : ∀ v ∈ volts, 0 ≤ v ∧ v ≤ vMax) (hmax : vMax < 30) :
    (∀ c ∈ cmdsOf (setVoltages st chans volts vMax).1.trace,
        c ∈ cmdsOf st.trace ∨
          (c.mode = 0 ∧ 0 ≤ c.value ∧ c.value ≤ 4095)) ∧
      (∀ c ∈ cmdsOf (setVoltagesSafe st chans volts r vMax).1.trace,
        c ∈ cmdsOf st.trace ∨ c.mode = 1 ∨
          (0 ≤ c.value ∧ c.value ≤ 4095)) ∧
      (∀ c ∈ cmdsOf (zeroChannels st chans failAt).1.trace,
        c ∈ cmdsOf st.trace ∨ c.value = 0) := by
  refine ⟨?_, ?_, cmdsOf_zeroChannels st chans failAt⟩
  · by_cases hlen : chans.length = volts.length
    · rw [cmdsOf_setVoltages st chans volts vMax hlen]
      intro c hc
      rcases List.mem_append.mp hc with hc | hc
      · exact Or.inl hc
      · right
        rcases List.mem_map.mp hc with ⟨p, hp, rfl⟩
        have hpv := (hv p.2 (List.of_mem_zip hp).2)
        refine ⟨rfl, ?_, ?_⟩
        · rw [min_eq_left hpv.2]
          exact voltageToDac_nonneg hpv.1
        · rw [min_eq_left hpv.2]
          exact voltageToDac_le (lt_of_le_of_lt hpv.2 hmax)
    · rw [setVoltages_mismatch st chans volts vMax hlen]
      exact fun c hc => Or.inl hc
  · by_cases hlen : chans.length = volts.length
    · rw [cmdsOf_setVoltagesSafe st chans volts r vMax hlen]
      intro c hc
      rcases List.mem_append.mp hc with hc | hc
      · rcases List.mem_append.mp hc with hc | hc
        · rcases List.mem_append.mp hc with hc | hc
          · exact Or.inl hc
          · rcases List.mem_map.mp hc with ⟨ch, _, rfl⟩
            exact Or.inr (Or.inl rfl)
        · rcases List.mem_map.mp hc with ⟨p, hp, rfl⟩
          have hpv := (hv p.2 (List.of_mem_zip hp).2)
          right; right
          have hif : (if p.2 > vMax then voltageToDac vMax
              else voltageToDac p.2) = voltageToDac p.2 := by
            rw [if_neg (not_lt.mpr hpv.2)]
          refine ⟨?_, ?_⟩
          · show (0 : ℤ) ≤ if p.2 > vMax then voltageToDac vMax
              else voltageToDac p.2
            rw [hif]; exact voltageToDac_nonneg hpv.1
          · show (if p.2 > vMax then voltageToDac vMax
              else voltageToDac p.2) ≤ 4095
            rw [hif]
            exact voltageToDac_le (lt_of_le_of_lt hpv.2 hmax)
      · rcases List.mem_map.mp hc with ⟨p, hp, rfl⟩
        exact Or.inr (Or.inl rfl)
    · rw [setVoltagesSafe_mismatch st chans volts r vMax hlen]
      exact fun c hc => Or.inl hc

theorem c1_voltage_codes_in_range_witness :
    (∀ v ∈ ([5] : List ℚ), 0 ≤ v ∧ v ≤ 10) ∧ (10 : ℚ) < 30 ∧
    ((∀ c ∈ cmdsOf (setVoltages initState [8] [5] 10).1.trace,
        c ∈ cmdsOf initState.trace ∨
          (c.mode = 0 ∧ 0 ≤ c.value ∧ c.value ≤ 4095)) ∧
      (∀ c ∈ cmdsOf (setVoltagesSafe initState [8] [5] 50 10).1.trace,
        c ∈ cmdsOf initState.trace ∨ c.mode = 1 ∨
          (0 ≤ c.value ∧ c.value ≤ 4095)) ∧
      (∀ c ∈ cmdsOf (zeroChannels initState [8] none).1.trace,
        c ∈ cmdsOf initState.trace ∨ c.value = 0)) :=
  ⟨by norm_num, by norm_num,
    c1_voltage_codes_in_range initState [8] [5] 50 10 none
      (by norm_num) (by norm_num)⟩

/-- C7: for each channel of a `set_voltages_safe` call with positive
resistance, the phase-3 per-channel current-limit DAC code is at most
the conservative phase-1 code, since the clamped voltage is at most
`v_max` and the conversion is monotone; the first conjunct identifies
those codes as exactly the ones transmitted in phases 1 and 3. -/
theorem c7_final_limit_le_initial_limit (st : CState) (chans : List Nat)
    (volts : List ℚ) (r vMax : ℚ) (hlen : chans.length = volts.length)
    (hr : 0 < r) :
    cmdsOf (setVoltagesSafe st chans volts r vMax).1.trace =
      cmdsOf st.trace ++
        chans.map (fun ch => Command.mk ch 1
          (currentLimitToDac (vMax / r * CURRENT_SAFETY_FACTOR * 1000))) ++
        (chans.zip volts).map (fun p => Command.mk p.1 0
          (if p.2 > vMax then voltageToDac vMax else voltageToDac p.2)) ++
        (chans.zip volts).map (fun p => Command.mk p.1 1
          (currentLimitToDac
            (min p.2 vMax / r * CURRENT_SAFETY_FACTOR * 1000))) ∧
      ∀ p ∈ chans.zip volts,
        currentLimitToDac (min p.2 vMax / r * CURRENT_SAFETY_FACTOR * 1000)
          ≤ currentLimitToDac (vMax / r * CURRENT_SAFETY_FACTOR * 1000) := by
  refine ⟨cmdsOf_setVoltagesSafe st chans volts r vMax hlen, ?_⟩
  intro p _
  apply currentLimitToDac_mono
  have h1 : min p.2 vMax / r ≤ vMax / r :=
    (div_le_div_iff_of_pos_right hr).mpr (min_le_right _ _)
  have h2 : min p.2 vMax / r * CURRENT_SAFETY_FACTOR
      ≤ vMax / r * CURRENT_SAFETY_FACTOR :=
    mul_le_mul_of_nonneg_right h1 (by norm_num [CURRENT_SAFETY_FACTOR])
  exact mul_le_mul_of_nonneg_right h2 (by norm_num)

theorem c7_final_limit_le_initial_limit_witness :
    ([8] : List Nat).length = ([5] : List ℚ).length ∧ (0 : ℚ) < 50 ∧
    (cmdsOf (setVoltagesSafe initState [8] [5] 50 10).1.trace =
      cmdsOf initState.trace ++
        ([8] : List Nat).map (fun ch => Command.mk ch 1
          (currentLimitToDac (10 / 50 * CURRENT_SAFETY_FACTOR * 1000))) ++
        (([8] : List Nat).zip ([5] : List ℚ)).map (fun p => Command.mk p.1 0
          (if p.2 > 10 then voltageToDac 10 else voltageToDac p.2)) ++
        (([8] : List Nat).zip ([5] : List ℚ)).map (fun p => Command.mk p.1 1
          (currentLimitToDac
            (min p.2 10 / 50 * CURRENT_SAFETY_FACTOR * 1000))) ∧
      ∀ p ∈ ([8] : List Nat).zip ([5] : List ℚ),
        currentLimitToDac (min p.2 10 / 50 * CURRENT_SAFETY_FACTOR * 1000)
          ≤ currentLimitToDac (10 / 50 * CURRENT_SAFETY_FACTOR * 1000)) :=
  ⟨rfl, by norm_num,
    c7_final_limit_le_initial_limit initState [8] [5] 50 10 rfl
      (by norm_num)⟩

/-- C8: `__exit__` never lets a zeroing exception escape — even though
zeroing can genuinely fail (last conjunct) — and the serial transport
is closed afterward whether zeroing succeeded or failed. -/
theorem c8_exit_catches_and_closes (st : CState) (zeroOnExit : Bool)
    (failAt : Option Nat) :
    (exitCtx st zeroOnExit failAt).2 = none ∧
      (exitCtx st zeroOnExit failAt).1.isOpen = false ∧
      (exitCtx st zeroOnExit failAt).1 =
        closeSerial (if zeroOnExit && !st.activeChannels.isEmpty
          then (zeroChannels st st.activeChannels failAt).1 else st) ∧
      (zeroChannels initState [8] (some 0)).2 = some "write error" :=
  ⟨rfl, closeSerial_isOpen _, rfl, rfl⟩

/-- C10: `_active_channels` never holds duplicates and only grows:
starting from a duplicate-free state, any sequence of
`set_voltages`/`set_voltages_safe` calls leaves it duplicate-free,
keeps every previously active channel, and each channel addressed by a
length-valid call ends up appearing exactly once. -/
theorem c10_active_channels_nodup (st : CState) (cs : List Call)
    (h : st.activeChannels.Nodup) :
    (runCalls st cs).activeChannels.Nodup ∧
      (∀ x ∈ st.activeChannels, x ∈ (runCalls st cs).activeChannels) ∧
      (∀ c ∈ cs, c.lengthsMatch → ∀ x ∈ c.channels,
        (runCalls st cs).activeChannels.count x = 1) :=
  ⟨runCalls_nodup cs st h,
    fun _ hx => runCalls_mem_mono cs st hx,
    fun _ hc hm _ hx =>
      List.count_eq_one_of_mem (runCalls_nodup cs st h)
        (runCalls_mem_of_call cs st hc hm hx)⟩

theorem c10_active_channels_nodup_witness :
    (initState.activeChannels.Nodup) ∧
    ((runCalls initState
        [Call.setV [8, 9] [3, 5] 10, Call.setV [9] [1] 10]
      ).activeChannels.Nodup ∧
      (∀ x ∈ initState.activeChannels, x ∈ (runCalls initState
        [Call.setV [8, 9] [3, 5] 10, Call.setV [9] [1] 10]
      ).activeChannels) ∧
      (∀ c ∈ [Call.setV [8, 9] [3, 5] 10, Call.setV [9] [1] 10],
        c.lengthsMatch → ∀ x ∈ c.channels,
        (runCalls initState
          [Call.setV [8, 9] [3, 5] 10, Call.setV [9] [1] 10]
        ).activeChannels.count x = 1)) :=
  ⟨by simp [initState],
    c10_active_channels_nodup initState
      [Call.setV [8, 9] [3, 5] 10, Call.setV [9] [1] 10]
      (by simp [initState])⟩

end VoltageCtrl
